import Mathlib

/-!
Verification of the RetroTV virtual-channel scheduling engine.

The definitions below are a shallow embedding of the Python sources
`src/retro_23.py` and `src/server_29.py`.  Python floats are modelled by
rationals (`ℚ`); Python's `%` on floats with a positive divisor is modelled
by `pymod`; functions that return `None` or abort early return `Option`
values; external effects (the ffprobe subprocess, `random.uniform`,
`random.choice`, `random.shuffle`, `os.path.getmtime`, the mpv IPC socket)
are modelled by oracle parameters, and the commands sent to the player are
collected in a trace.
-/

set_option linter.unusedVariables false

namespace RetroTV

/-- Python float modulo `a % b`.  For a positive divisor `b` the result of
Python's `%` lies in `[0, b)` and equals `a - b * floor (a / b)`. -/
def pymod (a b : ℚ) : ℚ := a - b * ⌊a / b⌋

/-- Commands sent to the external mpv player over the IPC socket:
`loadfile <path> replace` and `set_property time-pos <offset>`. -/
inductive Cmd
  | loadfile (path : String)
  | seek (pos : ℚ)
deriving DecidableEq

/-- Path of the transition ("bumper") clip, `TRANSITION_VIDEO` in the source. -/
def TRANSITION_VIDEO : String := "transition.mp4"

/-- The `for video, d in zip(playlist, durations)` walk inside
`compute_current_video_and_offset`: the first pair whose cumulative end
`cumulative + d` exceeds `channel_pos` is returned together with the offset
`channel_pos - cumulative`; falling through yields `none`. -/
def findVideo : List (String × ℚ) → ℚ → ℚ → Option (String × ℚ)
  | [], _, _ => none
  | (video, d) :: rest, channelPos, cumulative =>
    if channelPos < cumulative + d then some (video, channelPos - cumulative)
    else findVideo rest channelPos (cumulative + d)

/-- `compute_current_video_and_offset` (identical in `retro_23.py` lines
118-140 and `server_29.py` lines 113-133).  The playlist and duration list of
the channel are passed explicitly, and the wall-clock reading
`get_seconds_since_midnight()` is the parameter `elapsed`. -/
def compute_current_video_and_offset (playlist : List String) (durations : List ℚ)
    (elapsed : ℚ) : Option (String × ℚ) :=
  match playlist, durations with
  | [], _ => none
  | _ :: _, [] => none
  | v :: vs, d :: ds =>
    if (d :: ds).sum = 0 then some (v, 0)
    else
      match findVideo ((v :: vs).zip (d :: ds)) (pymod elapsed ((d :: ds).sum)) 0 with
      | some r => some r
      | none => some ((v :: vs).getLast (List.cons_ne_nil v vs), 0)

lemma pymod_nonneg (a : ℚ) {b : ℚ} (hb : 0 < b) : 0 ≤ pymod a b := by
  have h1 : ((⌊a / b⌋ : ℚ)) ≤ a / b := Int.floor_le _
  have h2 : ((⌊a / b⌋ : ℚ)) * b ≤ a := (le_div_iff₀ hb).mp h1
  unfold pymod
  nlinarith

lemma pymod_lt (a : ℚ) {b : ℚ} (hb : 0 < b) : pymod a b < b := by
  have h1 : a / b < (⌊a / b⌋ : ℚ) + 1 := Int.lt_floor_add_one _
  have h2 : a < ((⌊a / b⌋ : ℚ) + 1) * b := (div_lt_iff₀ hb).mp h1
  unfold pymod
  nlinarith

lemma sum_take_mono (l : List ℚ) (hnn : ∀ x ∈ l, 0 ≤ x) {i j : ℕ} (hij : i ≤ j) :
    (l.take i).sum ≤ (l.take j).sum := by
  have h1 : (l.take j).take i = l.take i := by
    rw [List.take_take, min_eq_left hij]
  have h2 : ((l.take j).take i).sum + ((l.take j).drop i).sum = (l.take j).sum :=
    List.sum_take_add_sum_drop _ _
  have h3 : 0 ≤ ((l.take j).drop i).sum := by
    apply List.sum_nonneg
    intro x hx
    exact hnn x (List.take_subset j l (List.drop_subset i _ hx))
  rw [h1] at h2
  linarith

lemma sum_take_succ_getElem (l : List ℚ) (k : ℕ) (d : ℚ) (h : l[k]? = some d) :
    (l.take (k + 1)).sum = (l.take k).sum + d := by
  rw [List.take_succ, h]
  simp

lemma getElem?_zip_eq_some {α β : Type} :
    ∀ (l₁ : List α) (l₂ : List β) (k : ℕ) (a : α) (b : β),
      (l₁.zip l₂)[k]? = some (a, b) → l₁[k]? = some a ∧ l₂[k]? = some b
  | [], _, k, _, _, h => by simp at h
  | _ :: _, [], k, _, _, h => by simp at h
  | x :: l₁, y :: l₂, 0, a, b, h => by
    simp only [List.zip_cons_cons, List.getElem?_cons_zero, Option.some.injEq,
      Prod.mk.injEq] at h
    simp [h.1, h.2]
  | x :: l₁, y :: l₂, k + 1, a, b, h => by
    simp only [List.zip_cons_cons, List.getElem?_cons_succ] at h ⊢
    exact getElem?_zip_eq_some l₁ l₂ k a b h

/-- Specification of the `findVideo` walk: when the position lies in
`[cumulative, cumulative + total)`, the walk succeeds at some index `k`
with the reported offset, and every earlier item's cumulative end is at
most the position. -/
lemma findVideo_spec :
    ∀ (pairs : List (String × ℚ)) (pos cum : ℚ),
      cum ≤ pos → pos < cum + (pairs.map Prod.snd).sum →
      ∃ k v d, pairs[k]? = some (v, d) ∧
        findVideo pairs pos cum
          = some (v, pos - (cum + ((pairs.map Prod.snd).take k).sum)) ∧
        cum + ((pairs.map Prod.snd).take k).sum ≤ pos ∧
        pos < cum + ((pairs.map Prod.snd).take k).sum + d ∧
        ∀ j v' d', j < k → pairs[j]? = some (v', d') →
          cum + ((pairs.map Prod.snd).take j).sum + d' ≤ pos := by
  intro pairs
  induction pairs with
  | nil =>
    intro pos cum h1 h2
    simp only [List.map_nil, List.sum_nil, add_zero] at h2
    exact absurd (lt_of_le_of_lt h1 h2) (lt_irrefl _)
  | cons hd tl ih =>
    obtain ⟨video, d⟩ := hd
    intro pos cum h1 h2
    by_cases hc : pos < cum + d
    · refine ⟨0, video, d, by simp, ?_, by simpa using h1, by simpa using hc, ?_⟩
      · simp [findVideo, hc]
      · intro j v' d' hj
        exact absurd hj (Nat.not_lt_zero j)
    · push_neg at hc
      have h2' : pos < (cum + d) + (tl.map Prod.snd).sum := by
        simp only [List.map_cons, List.sum_cons] at h2
        linarith
      obtain ⟨k, v, dd, hget, heq, hle, hlt, hprev⟩ := ih pos (cum + d) hc h2'
      refine ⟨k + 1, v, dd, by simpa using hget, ?_, ?_, ?_, ?_⟩
      · have hstep : findVideo ((video, d) :: tl) pos cum = findVideo tl pos (cum + d) := by
          simp [findVideo, not_lt.mpr hc]
        rw [hstep, heq]
        congr 2
        simp only [List.map_cons, List.take_succ_cons, List.sum_cons]
        ring
      · simp only [List.map_cons, List.take_succ_cons, List.sum_cons]
        linarith
      · simp only [List.map_cons, List.take_succ_cons, List.sum_cons]
        linarith
      · intro j v' d' hj hget'
        cases j with
        | zero =>
          simp only [List.getElem?_cons_zero, Option.some.injEq, Prod.mk.injEq] at hget'
          simp only [List.take_zero, List.sum_nil, add_zero, ← hget'.2]
          linarith
        | succ j' =>
          simp only [List.getElem?_cons_succ] at hget'
          have := hprev j' v' d' (Nat.lt_of_succ_lt_succ hj) hget'
          simp only [List.map_cons, List.take_succ_cons, List.sum_cons]
          linarith

/-- C4: when the total duration is zero, the resolver returns the first
item with offset `0` on a non-empty playlist and `none` on an empty one,
totally (no exception, no modulus by zero: the `total_duration == 0` guard
precedes the `%`). -/
theorem resolver_zero_total (playlist : List String) (durations : List ℚ) (elapsed : ℚ)
    (hlen : playlist.length = durations.length) (hT : durations.sum = 0) :
    compute_current_video_and_offset playlist durations elapsed
      = playlist.head?.map (fun v => (v, (0 : ℚ))) := by
  match playlist, durations with
  | [], _ => rfl
  | v :: vs, [] => simp at hlen
  | v :: vs, d :: ds =>
    simp [compute_current_video_and_offset, hT]

/-- Witness for C4 at a concrete input: one item of duration `0`. -/
theorem resolver_zero_total_witness :
    compute_current_video_and_offset ["a.mp4"] [0] 7
      = (["a.mp4"].head?).map (fun v => (v, (0 : ℚ))) :=
  resolver_zero_total ["a.mp4"] [0] 7 rfl (by simp)

/-- C1: for a channel whose total duration is positive (and whose playlist
and duration list correspond index-wise, with non-negative durations),
`compute_current_video_and_offset` returns the unique item whose cumulative
duration span contains `channelPos = elapsed mod total`, with offset
`channelPos - cumulativeStart` lying in `[0, duration(item))`. -/
theorem resolver_pos_total (playlist : List String) (durations : List ℚ) (elapsed : ℚ)
    (hlen : playlist.length = durations.length)
    (hnn : ∀ x ∈ durations, 0 ≤ x)
    (hT : 0 < durations.sum) :
    ∃ k w d, playlist[k]? = some w ∧ durations[k]? = some d ∧
      compute_current_video_and_offset playlist durations elapsed
        = some (w, pymod elapsed durations.sum - (durations.take k).sum) ∧
      (durations.take k).sum ≤ pymod elapsed durations.sum ∧
      pymod elapsed durations.sum < (durations.take k).sum + d ∧
      0 ≤ pymod elapsed durations.sum - (durations.take k).sum ∧
      pymod elapsed durations.sum - (durations.take k).sum < d ∧
      ∀ j d', durations[j]? = some d' →
        (durations.take j).sum ≤ pymod elapsed durations.sum →
        pymod elapsed durations.sum < (durations.take j).sum + d' → j = k := by
  cases durations with
  | nil => simp at hT
  | cons d ds =>
    cases playlist with
    | nil => simp at hlen
    | cons v vs =>
      have hT' : (d :: ds).sum ≠ 0 := ne_of_gt hT
      have h0 : 0 ≤ pymod elapsed (d :: ds).sum := pymod_nonneg _ hT
      have hltT : pymod elapsed (d :: ds).sum < (d :: ds).sum := pymod_lt _ hT
      have hlen' : (d :: ds).length ≤ (v :: vs).length := le_of_eq hlen.symm
      have hmap : ((v :: vs).zip (d :: ds)).map Prod.snd = d :: ds :=
        List.map_snd_zip _ _ hlen'
      obtain ⟨k, w, dd, hget, heq, hle, hlt2, hprev⟩ :=
        findVideo_spec ((v :: vs).zip (d :: ds)) (pymod elapsed (d :: ds).sum) 0 h0
          (by rw [hmap, zero_add]; exact hltT)
      rw [hmap] at heq hle hlt2 hprev
      simp only [zero_add] at heq hle hlt2 hprev
      obtain ⟨hgetp, hgetd⟩ := getElem?_zip_eq_some _ _ _ _ _ hget
      refine ⟨k, w, dd, hgetp, hgetd, ?_, hle, hlt2, by linarith, by linarith, ?_⟩
      · simp only [compute_current_video_and_offset]
        rw [if_neg hT', heq]
      · intro j d' hgetj hlej hltj
        rcases Nat.lt_trichotomy j k with hjk | hjk | hjk
        · exfalso
          have hjd : j < (d :: ds).length := (List.getElem?_eq_some.mp hgetj).1
          have hjz : j < ((v :: vs).zip (d :: ds)).length := by
            rw [List.length_zip]
            omega
          have hgz : ((v :: vs).zip (d :: ds))[j]? = some (((v :: vs).zip (d :: ds))[j]) :=
            List.getElem?_eq_getElem hjz
          obtain ⟨hp1, hp2⟩ := getElem?_zip_eq_some _ _ _ _ _ hgz
          have hd' : (((v :: vs).zip (d :: ds))[j]).2 = d' :=
            Option.some.inj (hp2.symm.trans hgetj)
          have hgz' : ((v :: vs).zip (d :: ds))[j]?
              = some ((((v :: vs).zip (d :: ds))[j]).1, d') := by
            rw [← hd']
            simp only [Prod.mk.eta]
            exact hgz
          have := hprev j _ d' hjk hgz'
          linarith
        · exact hjk
        · exfalso
          have hsucc : ((d :: ds).take (k + 1)).sum = ((d :: ds).take k).sum + dd :=
            sum_take_succ_getElem _ _ _ hgetd
          have hmono : ((d :: ds).take (k + 1)).sum ≤ ((d :: ds).take j).sum :=
            sum_take_mono _ hnn hjk
          linarith

/-- Witness for C1 at the spec's worked example: durations `100` and `50`,
`elapsed = 620`, so `channelPos = 20` and the result is item 1 at offset 20. -/
theorem resolver_pos_total_witness :
    ∃ k w d, (["a.mp4", "b.mp4"] : List String)[k]? = some w ∧
      ([100, 50] : List ℚ)[k]? = some d ∧
      compute_current_video_and_offset ["a.mp4", "b.mp4"] [100, 50] 620
        = some (w, pymod 620 ([100, 50] : List ℚ).sum
            - ((([100, 50] : List ℚ)).take k).sum) ∧
      ((([100, 50] : List ℚ)).take k).sum ≤ pymod 620 ([100, 50] : List ℚ).sum ∧
      pymod 620 ([100, 50] : List ℚ).sum < ((([100, 50] : List ℚ)).take k).sum + d ∧
      0 ≤ pymod 620 ([100, 50] : List ℚ).sum - ((([100, 50] : List ℚ)).take k).sum ∧
      pymod 620 ([100, 50] : List ℚ).sum - ((([100, 50] : List ℚ)).take k).sum < d ∧
      ∀ j d', ([100, 50] : List ℚ)[j]? = some d' →
        ((([100, 50] : List ℚ)).take j).sum ≤ pymod 620 ([100, 50] : List ℚ).sum →
        pymod 620 ([100, 50] : List ℚ).sum
          < ((([100, 50] : List ℚ)).take j).sum + d' → j = k :=
  resolver_pos_total ["a.mp4", "b.mp4"] [100, 50] 620 rfl
    (by intro x hx; simp only [List.mem_cons, List.not_mem_nil, or_false] at hx
        rcases hx with rfl | rfl <;> norm_num)
    (by norm_num [List.sum_cons, List.sum_nil])

/-! ## Duration Store (`get_video_duration`, `cached_get_video_duration`) -/

/-- One entry of `durations_cache`: `{"mod_time": ..., "duration": ...}`. -/
structure CacheEntry where
  mod_time : ℚ
  duration : ℚ
deriving DecidableEq

/-- `get_video_duration`: the ffprobe subprocess is the oracle `probe`;
`none` models any invocation or parse failure, in which case the function
returns `0`. -/
def get_video_duration (probe : String → Option ℚ) (video_path : String) : ℚ :=
  match probe video_path with
  | some duration => duration
  | none => 0

/-- `cached_get_video_duration` (identical logic in `retro_23.py` lines
75-87 and `server_29.py` lines 77-85; the retro version only adds debug
prints): the mutable `durations_cache` dict is threaded explicitly as an
association list (a dict update is modelled by prepending, which shadows
older bindings for `lookup`); `getmtime` is the `os.path.getmtime` oracle.
Returns the duration and the updated cache.  A cache hit — key present with
matching `mod_time` — returns the stored duration and leaves the cache
untouched, without consulting the probe. -/
def cached_get_video_duration (probe : String → Option ℚ) (getmtime : String → ℚ)
    (durations_cache : List (String × CacheEntry)) (video_path : String) :
    ℚ × List (String × CacheEntry) :=
  let mod_time := getmtime video_path
  match durations_cache.lookup video_path with
  | some e =>
    if e.mod_time = mod_time then (e.duration, durations_cache)
    else
      let duration := get_video_duration probe video_path
      (duration, (video_path, ⟨mod_time, duration⟩) :: durations_cache)
  | none =>
    let duration := get_video_duration probe video_path
    (duration, (video_path, ⟨mod_time, duration⟩) :: durations_cache)

/-- Counterexample to C3 (the `cached_get_video_duration` of both sources):
starting from an empty cache with a failing probe, the first call returns
`0` and stores `{mod_time, 0}` in the cache; a second call with the
modification time unchanged takes the cache-hit path — it returns the
cached `0` and leaves the cache untouched, so the probing utility is not
re-invoked even though the probe would now report `42`. -/
theorem cached_failure_counterexample :
    (cached_get_video_duration (fun _ => none) (fun _ => 5) [] "v.mp4").1 = 0 ∧
    (cached_get_video_duration (fun _ => none) (fun _ => 5) [] "v.mp4").2
      = [("v.mp4", ⟨5, 0⟩)] ∧
    (cached_get_video_duration (fun _ => some 42) (fun _ => 5)
        [("v.mp4", ⟨5, 0⟩)] "v.mp4")
      = (0, [("v.mp4", ⟨5, 0⟩)]) ∧
    get_video_duration (fun _ => some 42) "v.mp4" = 42 := by
  refine ⟨rfl, rfl, ?_, rfl⟩
  rfl

/-- C3 as amended (the failure path of `cached_get_video_duration`, whose
logic is identical in both sources): on a probe failure with no valid cache
entry, the call returns `0` and stores `{modTime, duration := 0}` as an
ordinary cache entry; any subsequent call with the modification time
unchanged is a cache hit — it returns the cached `0` and leaves the cache
unchanged, whatever the probe would now answer, so the probing utility is
not re-invoked until the file's modification time changes. -/
theorem cached_failure_is_cached (probe probe2 : String → Option ℚ)
    (getmtime : String → ℚ) (cache : List (String × CacheEntry)) (path : String)
    (hfail : probe path = none)
    (hmiss : ∀ e, cache.lookup path = some e → e.mod_time ≠ getmtime path) :
    (cached_get_video_duration probe getmtime cache path).1 = 0 ∧
    ((cached_get_video_duration probe getmtime cache path).2).lookup path
      = some ⟨getmtime path, 0⟩ ∧
    cached_get_video_duration probe2 getmtime
        (cached_get_video_duration probe getmtime cache path).2 path
      = (0, (cached_get_video_duration probe getmtime cache path).2) := by
  have hdur : get_video_duration probe path = 0 := by
    unfold get_video_duration
    rw [hfail]
  have hfirst : cached_get_video_duration probe getmtime cache path
      = (0, (path, ⟨getmtime path, 0⟩) :: cache) := by
    unfold cached_get_video_duration
    cases hcl : cache.lookup path with
    | none => simp [hdur]
    | some e =>
      have hne := hmiss e hcl
      simp [hdur, hne]
  refine ⟨by rw [hfirst], ?_, ?_⟩
  · rw [hfirst]
    simp [List.lookup]
  · rw [hfirst]
    unfold cached_get_video_duration
    simp [List.lookup]

/-- Witness for the amended C3 at a concrete input. -/
theorem cached_failure_is_cached_witness :
    (cached_get_video_duration (fun _ => none) (fun _ => 3) [] "w.mp4").1 = 0 ∧
    ((cached_get_video_duration (fun _ => none) (fun _ => 3) [] "w.mp4").2).lookup "w.mp4"
      = some ⟨3, 0⟩ ∧
    cached_get_video_duration (fun _ => some 9) (fun _ => 3)
        (cached_get_video_duration (fun _ => none) (fun _ => 3) [] "w.mp4").2 "w.mp4"
      = (0, (cached_get_video_duration (fun _ => none) (fun _ => 3) [] "w.mp4").2) :=
  cached_failure_is_cached (fun _ => none) (fun _ => some 9) (fun _ => 3) [] "w.mp4"
    rfl (by intro e he; simp [List.lookup] at he)

/-! ## Playback Sequencer (`switch_channel`, `play_transition_then_load`) -/

/-- `switch_channel` from `retro_23.py` (lines 189-219).  The playlist and
duration catalogs, the existence of the transition clip, the wall clock,
the fresh-probe oracle (`get_video_duration`, a `ℚ`-valued probe since the
source uses its numeric result directly) and the `random.uniform(0, hi)`
oracle (`uniformDraw hi`) are parameters.  The result is the new
`current_channel` together with the trace of commands sent to mpv.  Note the
source assigns `current_channel = channel` at entry, before the channel is
resolved. -/
def switch_channel (channel_playlists : String → List String)
    (channel_durations : String → List ℚ) (transitionExists : Bool) (elapsed : ℚ)
    (probe : String → ℚ) (uniformDraw : ℚ → ℚ) (use_random_offset : Bool)
    (current_channel : Option String) (channel : String) :
    Option String × List Cmd :=
  let newChannel : Option String := some channel
  let pre : List Cmd := if transitionExists then [Cmd.loadfile TRANSITION_VIDEO] else []
  match compute_current_video_and_offset (channel_playlists channel)
      (channel_durations channel) elapsed with
  | none => (newChannel, pre)
  | some (video, scheduled_offset) =>
    let offset : ℚ :=
      if use_random_offset then
        let duration := probe video
        if 0 < duration then uniformDraw (duration * 0.8) else 0
      else scheduled_offset
    (newChannel, pre ++ [Cmd.loadfile video, Cmd.seek offset])

/-- `play_transition_then_load` from `server_29.py` (lines 153-181): same
shape as `switch_channel` but it ignores the scheduled offset and always
seeks to `random.uniform(0, duration * 0.8)` (or `0` for a non-positive
duration); it also aborts when the resolved video is falsy (`if not video`),
i.e. the empty string as well as `None`. -/
def play_transition_then_load (channel_playlists : String → List String)
    (channel_durations : String → List ℚ) (transitionExists : Bool) (elapsed : ℚ)
    (probe : String → ℚ) (uniformDraw : ℚ → ℚ)
    (current_channel : Option String) (channel : String) :
    Option String × List Cmd :=
  let newChannel : Option String := some channel
  let pre : List Cmd := if transitionExists then [Cmd.loadfile TRANSITION_VIDEO] else []
  match compute_current_video_and_offset (channel_playlists channel)
      (channel_durations channel) elapsed with
  | none => (newChannel, pre)
  | some (video, _) =>
    if video = "" then (newChannel, pre)
    else
      let duration := probe video
      let random_offset : ℚ := if 0 < duration then uniformDraw (duration * 0.8) else 0
      (newChannel, pre ++ [Cmd.loadfile video, Cmd.seek random_offset])

/-- Counterexample to C2, for both implementations: switching to a channel
with no resolvable item does abort after the bumper step (no load/seek
command is issued), but both `switch_channel` (`retro_23.py`) and
`play_transition_then_load` (`server_29.py`) nevertheless update
`current_channel` to the target channel — it is not left unchanged as the
claim states. -/
theorem switch_channel_empty_mutates_state :
    compute_current_video_and_offset ([] : List String) ([] : List ℚ) 0 = none ∧
    (switch_channel (fun _ => []) (fun _ => []) false 0 (fun _ => 0) (fun _ => 0)
        false (some "channelOld") "channelA")
      = (some "channelA", []) ∧
    (play_transition_then_load (fun _ => []) (fun _ => []) false 0 (fun _ => 0)
        (fun _ => 0) (some "channelOld") "channelA")
      = (some "channelA", []) ∧
    (some "channelA" : Option String) ≠ some "channelOld" := by
  refine ⟨rfl, rfl, rfl, ?_⟩
  simp

/-- C2 as amended, for both implementations: if the target channel has no
resolvable item, `switch_channel` (`retro_23.py`) and
`play_transition_then_load` (`server_29.py`) each abort after the bumper
step — the trace contains at most the bumper load and no target load or
seek — but Session State's live channel field is updated to the target
channel at entry, so `current_channel` does change on this failure path. -/
theorem switch_channel_empty_aborts (channel_playlists : String → List String)
    (channel_durations : String → List ℚ) (transitionExists : Bool) (elapsed : ℚ)
    (probe : String → ℚ) (uniformDraw : ℚ → ℚ) (use_random_offset : Bool)
    (current_channel : Option String) (channel : String)
    (hempty : compute_current_video_and_offset (channel_playlists channel)
      (channel_durations channel) elapsed = none) :
    switch_channel channel_playlists channel_durations transitionExists elapsed
        probe uniformDraw use_random_offset current_channel channel
      = (some channel,
         if transitionExists then [Cmd.loadfile TRANSITION_VIDEO] else []) ∧
    play_transition_then_load channel_playlists channel_durations
        transitionExists elapsed probe uniformDraw current_channel channel
      = (some channel,
         if transitionExists then [Cmd.loadfile TRANSITION_VIDEO] else []) := by
  constructor
  · unfold switch_channel
    rw [hempty]
  · unfold play_transition_then_load
    rw [hempty]

/-- Witness for the amended C2 at a concrete input, exercising both
implementations. -/
theorem switch_channel_empty_aborts_witness :
    switch_channel (fun _ => []) (fun _ => []) true 11 (fun _ => 4) (fun _ => 1)
        true (some "channelOld") "channelB"
      = (some "channelB",
         if true then [Cmd.loadfile TRANSITION_VIDEO] else []) ∧
    play_transition_then_load (fun _ => []) (fun _ => []) true 11 (fun _ => 4)
        (fun _ => 1) (some "channelOld") "channelB"
      = (some "channelB",
         if true then [Cmd.loadfile TRANSITION_VIDEO] else []) :=
  switch_channel_empty_aborts (fun _ => []) (fun _ => []) true 11 (fun _ => 4)
    (fun _ => 1) true (some "channelOld") "channelB" rfl

/-- C5: offset policy of the switch operation on a non-empty channel.
With `use_random_offset = False`, `switch_channel` seeks to exactly the
scheduled offset from the Position Resolver.  With `use_random_offset =
True` it seeks to the `random.uniform(0, duration * 0.8)` draw — under the
uniform contract an offset in `[0, 0.8 × duration)` — and to `0` when the
probed duration is not positive.  `play_transition_then_load` (which always
requests a random offset) obeys the same random-offset policy. -/
theorem switch_offset_policy (channel_playlists : String → List String)
    (channel_durations : String → List ℚ) (transitionExists : Bool) (elapsed : ℚ)
    (probe : String → ℚ) (uniformDraw : ℚ → ℚ) (current_channel : Option String)
    (channel video : String) (scheduled : ℚ)
    (hres : compute_current_video_and_offset (channel_playlists channel)
      (channel_durations channel) elapsed = some (video, scheduled))
    (huni : ∀ hi : ℚ, 0 < hi → 0 ≤ uniformDraw hi ∧ uniformDraw hi < hi)
    (hv : video ≠ "") :
    (switch_channel channel_playlists channel_durations transitionExists elapsed
        probe uniformDraw false current_channel channel).2
      = (if transitionExists then [Cmd.loadfile TRANSITION_VIDEO] else [])
          ++ [Cmd.loadfile video, Cmd.seek scheduled] ∧
    (∃ off,
      (switch_channel channel_playlists channel_durations transitionExists elapsed
          probe uniformDraw true current_channel channel).2
        = (if transitionExists then [Cmd.loadfile TRANSITION_VIDEO] else [])
            ++ [Cmd.loadfile video, Cmd.seek off] ∧
      (0 < probe video → 0 ≤ off ∧ off < 0.8 * probe video) ∧
      (¬ 0 < probe video → off = 0)) ∧
    (∃ off,
      (play_transition_then_load channel_playlists channel_durations
          transitionExists elapsed probe uniformDraw current_channel channel).2
        = (if transitionExists then [Cmd.loadfile TRANSITION_VIDEO] else [])
            ++ [Cmd.loadfile video, Cmd.seek off] ∧
      (0 < probe video → 0 ≤ off ∧ off < 0.8 * probe video) ∧
      (¬ 0 < probe video → off = 0)) := by
  have h08 : ∀ d : ℚ, 0 < d → 0 < d * 0.8 := by
    intro d hd
    nlinarith
  refine ⟨?_, ?_, ?_⟩
  · unfold switch_channel
    rw [hres]
    simp
  · by_cases hd : 0 < probe video
    · refine ⟨uniformDraw (probe video * 0.8), ?_, ?_, fun h => absurd hd h⟩
      · unfold switch_channel
        rw [hres]
        simp [hd]
      · intro _
        obtain ⟨hlo, hhi⟩ := huni _ (h08 _ hd)
        exact ⟨hlo, by linarith [hhi, mul_comm (probe video) (0.8 : ℚ)]⟩
    · refine ⟨0, ?_, fun h => absurd h hd, fun _ => rfl⟩
      unfold switch_channel
      rw [hres]
      simp [hd]
  · by_cases hd : 0 < probe video
    · refine ⟨uniformDraw (probe video * 0.8), ?_, ?_, fun h => absurd hd h⟩
      · unfold play_transition_then_load
        rw [hres]
        simp [hd, hv]
      · intro _
        obtain ⟨hlo, hhi⟩ := huni _ (h08 _ hd)
        exact ⟨hlo, by linarith [hhi, mul_comm (probe video) (0.8 : ℚ)]⟩
    · refine ⟨0, ?_, fun h => absurd h hd, fun _ => rfl⟩
      unfold play_transition_then_load
      rw [hres]
      simp [hd, hv]

/-- Witness for C5 at a concrete input: one item of duration `10`,
`elapsed = 3`, probe reporting `10`, uniform draw modelled by `hi / 2`. -/
theorem switch_offset_policy_witness :
    (switch_channel (fun _ => ["a.mp4"]) (fun _ => [10]) false 3 (fun _ => 10)
        (fun hi => hi / 2) false none "ch").2
      = (if false then [Cmd.loadfile TRANSITION_VIDEO] else [])
          ++ [Cmd.loadfile "a.mp4", Cmd.seek 3] ∧
    (∃ off,
      (switch_channel (fun _ => ["a.mp4"]) (fun _ => [10]) false 3 (fun _ => 10)
          (fun hi => hi / 2) true none "ch").2
        = (if false then [Cmd.loadfile TRANSITION_VIDEO] else [])
            ++ [Cmd.loadfile "a.mp4", Cmd.seek off] ∧
      (0 < (fun _ : String => (10 : ℚ)) "a.mp4" →
        0 ≤ off ∧ off < 0.8 * (fun _ : String => (10 : ℚ)) "a.mp4") ∧
      (¬ 0 < (fun _ : String => (10 : ℚ)) "a.mp4" → off = 0)) ∧
    (∃ off,
      (play_transition_then_load (fun _ => ["a.mp4"]) (fun _ => [10]) false 3
          (fun _ => 10) (fun hi => hi / 2) none "ch").2
        = (if false then [Cmd.loadfile TRANSITION_VIDEO] else [])
            ++ [Cmd.loadfile "a.mp4", Cmd.seek off] ∧
      (0 < (fun _ : String => (10 : ℚ)) "a.mp4" →
        0 ≤ off ∧ off < 0.8 * (fun _ : String => (10 : ℚ)) "a.mp4") ∧
      (¬ 0 < (fun _ : String => (10 : ℚ)) "a.mp4" → off = 0)) :=
  switch_offset_policy (fun _ => ["a.mp4"]) (fun _ => [10]) false 3 (fun _ => 10)
    (fun hi => hi / 2) none "ch" "a.mp4" 3
    (by norm_num [compute_current_video_and_offset, findVideo, pymod])
    (by intro hi hhi; constructor <;> linarith)
    (by simp)

/-! ## Next-video selection (`next_video`, `play_transition_then_next`) -/

/-- `next_video` from `retro_23.py` (lines 221-252).  `choice` is the
`random.choice` oracle (any function returning a member of its argument is a
possible draw).  The chosen video is `random.choice(playlist)` over the whole
playlist — the currently playing item is not excluded.  Returns `none` on
the no-op paths (no active channel, empty playlist), otherwise the command
trace sent to mpv. -/
def next_video (channel_playlists : String → List String)
    (choice : List String → String) (probe : String → ℚ) (uniformDraw : ℚ → ℚ)
    (transitionExists : Bool) (elapsed : ℚ) (use_random_offset : Bool)
    (current_channel : Option String) : Option (List Cmd) :=
  match current_channel with
  | none => none
  | some ch =>
    match channel_playlists ch with
    | [] => none
    | v :: vs =>
      let chosen_video := choice (v :: vs)
      let duration := probe chosen_video
      let offset : ℚ :=
        if use_random_offset then
          if 0 < duration then uniformDraw (duration * 0.8) else 0
        else
          if 0 < duration then pymod elapsed duration else 0
      let pre : List Cmd :=
        if transitionExists then [Cmd.loadfile TRANSITION_VIDEO] else []
      some (pre ++ [Cmd.loadfile chosen_video, Cmd.seek offset])

/-- `play_transition_then_next` from `server_29.py` (lines 183-219).  Unlike
`next_video`, when the playlist has more than one item it restricts the
`random.choice` draw to the items different from the currently resolved one
(`possible_videos`), falling back to the current item when every item equals
it.  The unreachable case of an empty `possible_videos` with no resolved
current item is mapped to `none`. -/
def play_transition_then_next (channel_playlists : String → List String)
    (channel_durations : String → List ℚ) (choice : List String → String)
    (probe : String → ℚ) (uniformDraw : ℚ → ℚ) (transitionExists : Bool)
    (elapsed : ℚ) (current_channel : Option String) : Option (List Cmd) :=
  match current_channel with
  | none => none
  | some ch =>
    match channel_playlists ch with
    | [] => none
    | v :: vs =>
      let playlist := v :: vs
      let current_video :=
        (compute_current_video_and_offset playlist (channel_durations ch)
          elapsed).map Prod.fst
      let chosen? : Option String :=
        if 1 < playlist.length then
          match playlist.filter (fun x => !(some x == current_video)) with
          | [] => current_video
          | p :: ps => some (choice (p :: ps))
        else some v
      match chosen? with
      | none => none
      | some chosen_video =>
        let duration := probe chosen_video
        let random_offset : ℚ :=
          if 0 < duration then uniformDraw (duration * 0.8) else 0
        let pre : List Cmd :=
          if transitionExists then [Cmd.loadfile TRANSITION_VIDEO] else []
        some (pre ++ [Cmd.loadfile chosen_video, Cmd.seek random_offset])

/-- Counterexample to C6: `retro_23.py`'s `next_video` draws from the whole
playlist.  On channel `["a.mp4", "b.mp4"]` with the resolver currently at
`"a.mp4"` and the draw returning `"a.mp4"` (a member of the playlist, hence a
possible `random.choice` outcome), the next video loaded is again `"a.mp4"`
even though the alternative `"b.mp4"` exists. -/
theorem next_video_can_repeat_current :
    next_video (fun _ => ["a.mp4", "b.mp4"]) (fun l => l.headD "") (fun _ => 10)
        (fun _ => 0) false 0 false (some "ch")
      = some [Cmd.loadfile "a.mp4", Cmd.seek 0] ∧
    (compute_current_video_and_offset ["a.mp4", "b.mp4"] [10, 10] 0).map Prod.fst
      = some "a.mp4" ∧
    (fun l : List String => l.headD "") ["a.mp4", "b.mp4"] ∈ ["a.mp4", "b.mp4"] ∧
    "b.mp4" ∈ ["a.mp4", "b.mp4"] ∧ "a.mp4" ≠ "b.mp4" := by
  refine ⟨?_, ?_, by simp, by simp, by simp⟩
  · norm_num [next_video, pymod]
  · norm_num [compute_current_video_and_offset, findVideo, pymod]

/-- C6 as amended: `server_29.py`'s `play_transition_then_next` excludes the
currently resolved item — with more than one item and at least one item
different from the current one, the chosen item is a playlist member
different from the currently resolved item.  (`retro_23.py`'s `next_video`,
by contrast, draws from the full playlist and may repeat the current item.) -/
theorem play_next_excludes_current (channel_playlists : String → List String)
    (channel_durations : String → List ℚ) (choice : List String → String)
    (probe : String → ℚ) (uniformDraw : ℚ → ℚ) (transitionExists : Bool)
    (elapsed : ℚ) (ch v : String) (vs : List String)
    (hpl : channel_playlists ch = v :: vs)
    (hchoice : ∀ l : List String, l ≠ [] → choice l ∈ l)
    (hlen : 1 < (v :: vs).length)
    (halt : ∃ x ∈ v :: vs,
      some x ≠ (compute_current_video_and_offset (v :: vs)
        (channel_durations ch) elapsed).map Prod.fst) :
    ∃ chosen offset,
      chosen ∈ v :: vs ∧
      some chosen ≠ (compute_current_video_and_offset (v :: vs)
        (channel_durations ch) elapsed).map Prod.fst ∧
      play_transition_then_next channel_playlists channel_durations choice probe
          uniformDraw transitionExists elapsed (some ch)
        = some ((if transitionExists then [Cmd.loadfile TRANSITION_VIDEO] else [])
            ++ [Cmd.loadfile chosen, Cmd.seek offset]) := by
  obtain ⟨x, hx, hxne⟩ := halt
  set cur := (compute_current_video_and_offset (v :: vs)
    (channel_durations ch) elapsed).map Prod.fst with hcur
  have hxf : x ∈ (v :: vs).filter (fun y => !(some y == cur)) := by
    rw [List.mem_filter]
    exact ⟨hx, by simpa using hxne⟩
  have hfne : (v :: vs).filter (fun y => !(some y == cur)) ≠ [] := by
    intro hnil
    rw [hnil] at hxf
    exact List.not_mem_nil x hxf
  obtain ⟨p, ps, hps⟩ := List.exists_cons_of_ne_nil hfne
  have hcho : choice (p :: ps) ∈ p :: ps := hchoice _ (List.cons_ne_nil p ps)
  have hchof : choice (p :: ps) ∈ (v :: vs).filter (fun y => !(some y == cur)) := by
    rw [hps]
    exact hcho
  rw [List.mem_filter] at hchof
  refine ⟨choice (p :: ps),
    (if 0 < probe (choice (p :: ps)) then
      uniformDraw (probe (choice (p :: ps)) * 0.8) else 0),
    hchof.1, by simpa using hchof.2, ?_⟩
  unfold play_transition_then_next
  simp only [hpl, ← hcur, if_pos hlen, hps]

/-- Witness for the amended C6 at a concrete input: channel
`["a.mp4", "b.mp4"]`, resolver at `"a.mp4"`, so some draw lands on a
different item. -/
theorem play_next_excludes_current_witness :
    ∃ chosen offset,
      chosen ∈ ["a.mp4", "b.mp4"] ∧
      some chosen ≠ (compute_current_video_and_offset ["a.mp4", "b.mp4"]
        ((fun _ : String => [(10 : ℚ), 10]) "ch") 0).map Prod.fst ∧
      play_transition_then_next (fun _ => ["a.mp4", "b.mp4"])
          (fun _ => [10, 10]) (fun l => l.headD "") (fun _ => 10) (fun hi => hi / 2)
          false 0 (some "ch")
        = some ((if false then [Cmd.loadfile TRANSITION_VIDEO] else [])
            ++ [Cmd.loadfile chosen, Cmd.seek offset]) :=
  play_next_excludes_current (fun _ => ["a.mp4", "b.mp4"]) (fun _ => [10, 10])
    (fun l => l.headD "") (fun _ => 10) (fun hi => hi / 2) false 0 "ch"
    "a.mp4" ["b.mp4"] rfl
    (by intro l hl; cases l with
        | nil => exact absurd rfl hl
        | cons a as => simp)
    (by simp)
    (by refine ⟨"b.mp4", by simp, ?_⟩
        norm_num [compute_current_video_and_offset, findVideo, pymod]
        decide)

/-! ## Rotation visitation queue (`get_next_random_channel`) -/

/-- `get_next_random_channel` (identical in `retro_23.py` lines 263-268 and
`server_29.py` lines 233-238).  `shuffle` is the `random.shuffle` oracle
(any permutation is a possible outcome), `names` is `list(channels.keys())`,
and the mutable `global_channel_queue` is threaded explicitly.  Popping from
an empty refilled queue — `channels` empty — raises `IndexError`, modelled
by `none`. -/
def get_next_random_channel (shuffle : List String → List String)
    (names : List String) (global_channel_queue : List String) :
    Option (String × List String) :=
  match global_channel_queue with
  | c :: rest => some (c, rest)
  | [] =>
    match shuffle names with
    | [] => none
    | c :: rest => some (c, rest)

/-- `n` consecutive draws of `get_next_random_channel`: the list of returned
channel names and the final queue, or `none` if any draw raises. -/
def drawChannels (shuffle : List String → List String) (names : List String) :
    ℕ → List String → Option (List String × List String)
  | 0, queue => some ([], queue)
  | n + 1, queue =>
    match get_next_random_channel shuffle names queue with
    | none => none
    | some (c, queue') =>
      match drawChannels shuffle names n queue' with
      | none => none
      | some (out, qf) => some (c :: out, qf)

lemma drawChannels_pops (shuffle : List String → List String) (names : List String) :
    ∀ queue : List String,
      drawChannels shuffle names queue.length queue = some (queue, []) := by
  intro queue
  induction queue with
  | nil => rfl
  | cons c rest ih =>
    simp only [List.length_cons, drawChannels, get_next_random_channel, ih]

/-- C7: starting from an empty visitation queue with `N` distinct channel
names, `N` consecutive draws return every channel name exactly once (they
return precisely the shuffled permutation of the catalog) and leave the
queue empty again; the queue is refilled and reshuffled only on the first
draw, when it is exhausted. -/
theorem rotation_visits_all (shuffle : List String → List String)
    (names : List String) (hperm : (shuffle names).Perm names)
    (hnodup : names.Nodup) (hne : names ≠ []) :
    ∃ out, drawChannels shuffle names names.length [] = some (out, []) ∧
      out.Perm names ∧ ∀ c ∈ names, out.count c = 1 := by
  refine ⟨shuffle names, ?_, hperm, ?_⟩
  · have hlen : (shuffle names).length = names.length := hperm.length_eq
    cases hs : shuffle names with
    | nil =>
      rw [hs] at hlen
      cases names with
      | nil => exact absurd rfl hne
      | cons a as => simp at hlen
    | cons c rest =>
      cases names with
      | nil => exact absurd rfl hne
      | cons a as =>
        rw [hs] at hlen
        simp only [List.length_cons] at hlen
        have hr : as.length = rest.length := by omega
        have : drawChannels shuffle (a :: as) (as.length + 1) []
            = some (c :: rest, []) := by
          simp only [drawChannels, get_next_random_channel, hs]
          rw [hr, drawChannels_pops]
        rw [List.length_cons, this]
  · intro c hc
    rw [hperm.count_eq c]
    exact List.count_eq_one_of_mem hnodup hc

/-- Witness for C7 with two channels and reversal as the shuffle outcome. -/
theorem rotation_visits_all_witness :
    ∃ out, drawChannels List.reverse ["channelA", "channelB"]
        (["channelA", "channelB"] : List String).length [] = some (out, []) ∧
      out.Perm ["channelA", "channelB"] ∧
      ∀ c ∈ ["channelA", "channelB"], out.count c = 1 :=
  rotation_visits_all List.reverse ["channelA", "channelB"]
    (["channelA", "channelB"] : List String).reverse_perm (by decide) (by decide)

/-- C10: with a catalog invariant that the queue holds only catalog names,
every draw from a non-empty catalog returns a catalog name (and the new
queue again holds only catalog names); with an empty catalog and an empty
queue, the draw raises (`none`): enabling global rotation with zero detected
channels crashes the rotation loop instead of idling. -/
theorem get_next_random_channel_safety (shuffle : List String → List String)
    (names queue : List String)
    (hshuffle : ∀ l : List String, (shuffle l).Perm l)
    (hq : ∀ c ∈ queue, c ∈ names) :
    (names ≠ [] → ∃ c q', get_next_random_channel shuffle names queue
        = some (c, q') ∧ c ∈ names ∧ ∀ x ∈ q', x ∈ names) ∧
    (names = [] → queue = [] →
      get_next_random_channel shuffle names queue = none) := by
  constructor
  · intro hne
    cases queue with
    | cons c rest =>
      exact ⟨c, rest, rfl, hq c (List.mem_cons_self c rest),
        fun x hx => hq x (List.mem_cons_of_mem c hx)⟩
    | nil =>
      have hsub : ∀ x ∈ shuffle names, x ∈ names :=
        fun x hx => (hshuffle names).mem_iff.mp hx
      cases hs : shuffle names with
      | nil =>
        have := (hshuffle names).length_eq
        rw [hs] at this
        cases names with
        | nil => exact absurd rfl hne
        | cons a as => simp at this
      | cons c rest =>
        refine ⟨c, rest, ?_, ?_, ?_⟩
        · simp only [get_next_random_channel, hs]
        · exact hsub c (hs ▸ List.mem_cons_self c rest)
        · exact fun x hx => hsub x (hs ▸ List.mem_cons_of_mem c hx)
  · intro hn hqe
    subst hn hqe
    have := (hshuffle []).length_eq
    cases hs : shuffle ([] : List String) with
    | nil => simp only [get_next_random_channel, hs]
    | cons a as =>
      rw [hs] at this
      simp at this

/-- Witness for C10: singleton catalog with empty queue, and the empty
catalog with empty queue. -/
theorem get_next_random_channel_safety_witness :
    ((["channelA"] : List String) ≠ [] → ∃ c q',
      get_next_random_channel List.reverse ["channelA"] [] = some (c, q') ∧
      c ∈ (["channelA"] : List String) ∧
      ∀ x ∈ q', x ∈ (["channelA"] : List String)) ∧
    ((["channelA"] : List String) = [] → ([] : List String) = [] →
      get_next_random_channel List.reverse ["channelA"] [] = none) :=
  get_next_random_channel_safety List.reverse ["channelA"] []
    (fun l => l.reverse_perm) (by simp)

/-! ## Rotation Scheduler (`auto_mode_loop`)

The loop shares the mutable `auto_mode` flag with the front ends.  Each
read of the flag is modelled by consuming one element of an observation
schedule `obs : List (Option String)` (`none` = rotation off, `some m` =
mode `m`).  Reads happen in source order: one per test of the inner
`while countdown > 0 and auto_mode is not None` condition (skipped when
`countdown` is already `0`), then one for the `if auto_mode is None:
continue` check immediately before firing.  The interval is `120` in
`retro_23.py` and the mutable `auto_interval` in `server_29.py`; it is a
parameter here. -/

/-- The inner countdown loop: consumes one observation per second while the
countdown is positive and the observed mode is enabled.  Returns the
remaining schedule, whose head is the read performed by the pre-fire
`if auto_mode is None` check. -/
def innerWait : ℕ → List (Option String) → List (Option String)
  | 0, obs => obs
  | _ + 1, [] => []
  | countdown + 1, o :: rest =>
    if o.isSome then innerWait countdown rest else rest

/-- One activation attempt of `auto_mode_loop` after the outer
`if auto_mode is not None` test succeeded: run the countdown, then read the
flag once more; the fired activation is that final observation (`none` means
the `continue` path — nothing fires). -/
def auto_fire (auto_interval : ℕ) (obs : List (Option String)) :
    Option String × List (Option String) :=
  match innerWait auto_interval obs with
  | [] => (none, [])
  | o :: rest => (o, rest)

lemma innerWait_length_le : ∀ (c : ℕ) (obs : List (Option String)),
    (innerWait c obs).length ≤ obs.length
  | 0, _ => le_refl _
  | _ + 1, [] => le_refl _
  | c + 1, o :: rest => by
    simp only [innerWait]
    by_cases h : o.isSome
    · rw [if_pos h]
      exact le_trans (innerWait_length_le c rest) (Nat.le_succ _)
    · rw [if_neg h]
      exact Nat.le_succ _

/-- The full `auto_mode_loop` over a finite observation schedule, collecting
the modes of the activations that fire, in order.  Each pass begins with the
outer `if auto_mode is not None` read and then a fresh full-interval
countdown — a countdown never resumes a stale value. -/
def auto_loop (auto_interval : ℕ) (obs : List (Option String)) : List String :=
  match obs with
  | [] => []
  | o :: rest =>
    if o.isSome then
      match h : innerWait auto_interval rest with
      | [] => []
      | none :: r2 => auto_loop auto_interval r2
      | some m :: r2 => m :: auto_loop auto_interval r2
    else auto_loop auto_interval rest
termination_by obs.length
decreasing_by
  · have hle := innerWait_length_le auto_interval rest
    rw [h] at hle
    simp only [List.length_cons] at hle ⊢
    omega
  · have hle := innerWait_length_le auto_interval rest
    rw [h] at hle
    simp only [List.length_cons] at hle ⊢
    omega
  · simp

lemma innerWait_all_some :
    ∀ (pre : List (Option String)) (c : ℕ) (tail : List (Option String)),
      (∀ o ∈ pre, o.isSome = true) → pre.length < c →
      innerWait c (pre ++ none :: tail) = tail := by
  intro pre
  induction pre with
  | nil =>
    intro c tail _ hc
    match c, hc with
    | c + 1, _ => simp [innerWait]
  | cons o pre ih =>
    intro c tail hall hc
    match c, hc with
    | c + 1, hc =>
      have ho : o.isSome = true := hall o (List.mem_cons_self o pre)
      simp only [List.cons_append, innerWait, if_pos ho]
      exact ih c tail (fun x hx => hall x (List.mem_cons_of_mem o hx))
        (by simp only [List.length_cons] at hc; omega)

/-- Counterexample to C8: with interval `2`, the schedule reads enabled at
the first countdown tick, *off* at the second tick (index 1 of the
schedule — rotation was disabled during the active countdown), and enabled
again at the pre-fire check.  The pending activation fires anyway, and with
no restarted countdown: the flag toggling off and back on between the
countdown-exit read and the pre-fire read defeats both halves of the
claim. -/
theorem auto_mode_race_fires :
    auto_fire 2 [some "global", none, some "global"] = (some "global", []) ∧
    ([some "global", none, some "global"] : List (Option String))[1]?
      = some none := ⟨rfl, rfl⟩

/-- C8 as amended: a disable observed during the countdown aborts the wait,
and if the mode is still off at the pre-fire check nothing fires and the
loop continues as a fresh loop on the remaining schedule (any later
activation passes through a new full-interval countdown, never a stale
one).  But if the mode is re-enabled in the window between the
countdown-exit read and the pre-fire read, the pending activation fires
immediately. -/
theorem auto_mode_disable_semantics (auto_interval : ℕ) (m0 : String)
    (pre rest : List (Option String))
    (hpre : ∀ o ∈ pre, o.isSome = true) (hlen : pre.length < auto_interval) :
    auto_fire auto_interval (pre ++ none :: none :: rest) = (none, rest) ∧
    (∀ m, auto_fire auto_interval (pre ++ none :: some m :: rest)
      = (some m, rest)) ∧
    auto_loop auto_interval (some m0 :: (pre ++ none :: none :: rest))
      = auto_loop auto_interval rest := by
  have h1 : innerWait auto_interval (pre ++ none :: (none :: rest))
      = none :: rest := innerWait_all_some pre _ _ hpre hlen
  refine ⟨?_, ?_, ?_⟩
  · unfold auto_fire
    rw [h1]
  · intro m
    have h2 : innerWait auto_interval (pre ++ none :: (some m :: rest))
        = some m :: rest := innerWait_all_some pre _ _ hpre hlen
    unfold auto_fire
    rw [h2]
  · conv_lhs => rw [auto_loop]
    simp only [Option.isSome_some, if_true]
    split
    · rename_i heq
      rw [h1] at heq
      simp at heq
    · rename_i r2 heq
      rw [h1] at heq
      injection heq with _ hrest
      rw [hrest]
    · rename_i m r2 heq
      rw [h1] at heq
      simp at heq

/-- Witness for the amended C8 at a concrete schedule (interval `2`, one
enabled tick before the disable). -/
theorem auto_mode_disable_semantics_witness :
    auto_fire 2 ([some "global"] ++ none :: none :: []) = (none, []) ∧
    (∀ m, auto_fire 2 ([some "global"] ++ none :: some m :: []) = (some m, [])) ∧
    auto_loop 2 (some "global" :: ([some "global"] ++ none :: none :: []))
      = auto_loop 2 [] :=
  auto_mode_disable_semantics 2 "global" [some "global"] []
    (by intro o ho; simp only [List.mem_singleton] at ho; rw [ho]; rfl)
    (by decide)

/-! ## Flask endpoints (`web_switch_channel`, `set_auto_mode`,
`set_auto_interval`) -/

/-- `/switch_channel` handler `web_switch_channel` (`server_29.py` lines
279-286).  The request's `"channel"` field is `channelParam` (`none` =
missing); Python's falsiness test `if not channel` also rejects the empty
string.  Returns the HTTP status and the new `current_channel`.  There is
no membership check against the `channels` catalog before calling the
sequencer. -/
def web_switch_channel (channel_playlists : String → List String)
    (channel_durations : String → List ℚ) (transitionExists : Bool) (elapsed : ℚ)
    (probe : String → ℚ) (uniformDraw : ℚ → ℚ) (current_channel : Option String)
    (channelParam : Option String) : ℕ × Option String :=
  match channelParam with
  | none => (400, current_channel)
  | some channel =>
    if channel = "" then (400, current_channel)
    else
      (200, (play_transition_then_load channel_playlists channel_durations
        transitionExists elapsed probe uniformDraw current_channel channel).1)

/-- `/set_auto_mode` handler (`server_29.py` lines 293-312): `"global"` or
`"local"` is stored, `"off"` clears the mode, anything else — including a
missing field — is rejected with a 400 and `auto_mode` is unchanged. -/
def set_auto_mode (modeParam : Option String) (auto_mode : Option String) :
    ℕ × Option String :=
  match modeParam with
  | some m =>
    if m = "global" ∨ m = "local" then (200, some m)
    else if m = "off" then (200, none)
    else (400, auto_mode)
  | none => (400, auto_mode)

/-- `/set_auto_interval` handler (`server_29.py` lines 314-330).
`intervalParam` models `int(data.get("interval"))`, with `none` standing for
any `int()` conversion failure (missing field, unparsable value); a failure
or a non-positive value takes the `except` path: 400, `auto_interval`
unchanged. -/
def set_auto_interval (intervalParam : Option ℤ) (auto_interval : ℤ) : ℕ × ℤ :=
  match intervalParam with
  | none => (400, auto_interval)
  | some interval =>
    if interval ≤ 0 then (400, auto_interval) else (200, interval)

/-- Counterexample to C9: an unknown channel name — not a key of the
catalog, here `{"channel1"}` — is not rejected at the API boundary: the
switch endpoint answers 200 ("success") and the live channel is mutated to
the unknown name. -/
theorem web_switch_unknown_channel_accepted :
    web_switch_channel (fun ch => if ch = "channel1" then ["v.mp4"] else [])
        (fun ch => if ch = "channel1" then [10] else []) false 0 (fun _ => 0)
        (fun _ => 0) (some "channel1") (some "nochannel")
      = (200, some "nochannel") ∧
    "nochannel" ∉ (["channel1"] : List String) := by
  constructor
  · rfl
  · simp

/-- C9 as amended: an invalid mode, a missing mode, an unparsable or
non-positive interval, and a missing or empty channel name are each
rejected with a 400 and no state change; but an unknown non-empty channel
name is not validated — the switch endpoint reports success and mutates the
live channel to the unknown name (the load itself then aborts on the empty
playlist). -/
theorem endpoint_validation (channel_playlists : String → List String)
    (channel_durations : String → List ℚ) (transitionExists : Bool) (elapsed : ℚ)
    (probe : String → ℚ) (uniformDraw : ℚ → ℚ) (current_channel : Option String)
    (auto_mode : Option String) (auto_interval : ℤ)
    (m : String) (hm : m ≠ "global" ∧ m ≠ "local" ∧ m ≠ "off")
    (i : ℤ) (hi : i ≤ 0) (ch : String) (hch : ch ≠ "")
    (hunknown : channel_playlists ch = []) :
    set_auto_mode (some m) auto_mode = (400, auto_mode) ∧
    set_auto_mode none auto_mode = (400, auto_mode) ∧
    set_auto_interval (some i) auto_interval = (400, auto_interval) ∧
    set_auto_interval none auto_interval = (400, auto_interval) ∧
    web_switch_channel channel_playlists channel_durations transitionExists
        elapsed probe uniformDraw current_channel none
      = (400, current_channel) ∧
    web_switch_channel channel_playlists channel_durations transitionExists
        elapsed probe uniformDraw current_channel (some "")
      = (400, current_channel) ∧
    web_switch_channel channel_playlists channel_durations transitionExists
        elapsed probe uniformDraw current_channel (some ch)
      = (200, some ch) := by
  obtain ⟨hm1, hm2, hm3⟩ := hm
  refine ⟨?_, rfl, ?_, rfl, rfl, ?_, ?_⟩
  · simp only [set_auto_mode]
    rw [if_neg (by tauto), if_neg hm3]
  · simp only [set_auto_interval]
    rw [if_pos hi]
  · simp [web_switch_channel]
  · simp only [web_switch_channel, play_transition_then_load, hunknown,
      compute_current_video_and_offset]
    rw [if_neg hch]

/-- Witness for the amended C9 at concrete invalid inputs. -/
theorem endpoint_validation_witness :
    set_auto_mode (some "bogus") (some "global") = (400, some "global") ∧
    set_auto_mode none (some "global") = (400, some "global") ∧
    set_auto_interval (some (-5)) 120 = (400, 120) ∧
    set_auto_interval none 120 = (400, 120) ∧
    web_switch_channel (fun _ => []) (fun _ => []) false 0 (fun _ => 0)
        (fun _ => 0) (some "channel1") none
      = (400, some "channel1") ∧
    web_switch_channel (fun _ => []) (fun _ => []) false 0 (fun _ => 0)
        (fun _ => 0) (some "channel1") (some "")
      = (400, some "channel1") ∧
    web_switch_channel (fun _ => []) (fun _ => []) false 0 (fun _ => 0)
        (fun _ => 0) (some "channel1") (some "nochannel")
      = (200, some "nochannel") :=
  endpoint_validation (fun _ => []) (fun _ => []) false 0 (fun _ => 0)
    (fun _ => 0) (some "channel1") (some "global") 120 "bogus"
    (by refine ⟨?_, ?_, ?_⟩ <;> decide) (-5) (by decide) "nochannel"
    (by decide) rfl

end RetroTV
